import Mathlib

/-!
Verification of `rocket_prometheus` (src/lib.rs): a shallow embedding of the
Prometheus instrumentation fairing for Rocket, with proofs about its label
handling, registry composition, status formatting and scrape handler.

Machine integers are modelled as `Nat` (status codes are `u16`, so bounded by
65536 where it matters). Time instants and durations are modelled as `Nat`
ticks. External collaborators (Rocket's router and request-local cache, the
prometheus crate's metric vectors, registries and text encoder) are modelled
at the granularity of the interface src/lib.rs uses, following their
documented behaviour; each such definition says so in its doc comment.
-/

namespace RocketPrometheus

/-- The packed 3-ASCII-digit status code table for the range [100, 999]
(900 codes, 2700 bytes), transcribed from the `CODE_DIGITS` constant in
src/lib.rs (the Rust source writes it as one literal with `\` line
continuations; here the lines are joined with `++`). -/
def CODE_DIGITS : String :=
  "100101102103104105106107108109110111112113114115116117118119" ++
  "120121122123124125126127128129130131132133134135136137138139" ++
  "140141142143144145146147148149150151152153154155156157158159" ++
  "160161162163164165166167168169170171172173174175176177178179" ++
  "180181182183184185186187188189190191192193194195196197198199" ++
  "200201202203204205206207208209210211212213214215216217218219" ++
  "220221222223224225226227228229230231232233234235236237238239" ++
  "240241242243244245246247248249250251252253254255256257258259" ++
  "260261262263264265266267268269270271272273274275276277278279" ++
  "280281282283284285286287288289290291292293294295296297298299" ++
  "300301302303304305306307308309310311312313314315316317318319" ++
  "320321322323324325326327328329330331332333334335336337338339" ++
  "340341342343344345346347348349350351352353354355356357358359" ++
  "360361362363364365366367368369370371372373374375376377378379" ++
  "380381382383384385386387388389390391392393394395396397398399" ++
  "400401402403404405406407408409410411412413414415416417418419" ++
  "420421422423424425426427428429430431432433434435436437438439" ++
  "440441442443444445446447448449450451452453454455456457458459" ++
  "460461462463464465466467468469470471472473474475476477478479" ++
  "480481482483484485486487488489490491492493494495496497498499" ++
  "500501502503504505506507508509510511512513514515516517518519" ++
  "520521522523524525526527528529530531532533534535536537538539" ++
  "540541542543544545546547548549550551552553554555556557558559" ++
  "560561562563564565566567568569570571572573574575576577578579" ++
  "580581582583584585586587588589590591592593594595596597598599" ++
  "600601602603604605606607608609610611612613614615616617618619" ++
  "620621622623624625626627628629630631632633634635636637638639" ++
  "640641642643644645646647648649650651652653654655656657658659" ++
  "660661662663664665666667668669670671672673674675676677678679" ++
  "680681682683684685686687688689690691692693694695696697698699" ++
  "700701702703704705706707708709710711712713714715716717718719" ++
  "720721722723724725726727728729730731732733734735736737738739" ++
  "740741742743744745746747748749750751752753754755756757758759" ++
  "760761762763764765766767768769770771772773774775776777778779" ++
  "780781782783784785786787788789790791792793794795796797798799" ++
  "800801802803804805806807808809810811812813814815816817818819" ++
  "820821822823824825826827828829830831832833834835836837838839" ++
  "840841842843844845846847848849850851852853854855856857858859" ++
  "860861862863864865866867868869870871872873874875876877878879" ++
  "880881882883884885886887888889890891892893894895896897898899" ++
  "900901902903904905906907908909910911912913914915916917918919" ++
  "920921922923924925926927928929930931932933934935936937938939" ++
  "940941942943944945946947948949950951952953954955956957958959" ++
  "960961962963964965966967968969970971972973974975976977978979" ++
  "980981982983984985986987988989990991992993994995996997998999"

/-- `status_as_str` from src/lib.rs: slices `CODE_DIGITS` at byte offset
`(code - 100) * 3`, length 3. The table is pure ASCII, so the Rust byte
slice is modelled as a character slice. -/
def status_as_str (code : Nat) : String :=
  let offset := (code - 100) * 3
  ((CODE_DIGITS.toList.drop offset).take 3).asString

/-- Single-pass checker used to verify the `CODE_DIGITS` table: starting at
code `c`, every consecutive 3-character chunk of the list must be the decimal
rendering of the successive codes, ending exactly at 1000. -/
def checkCodeDigits (c : Nat) : List Char → Bool
  | a :: b :: d :: rest => ((toString c).toList == [a, b, d]) && checkCodeDigits (c + 1) rest
  | [] => c == 1000
  | _ => false

/-- Modelled from rocket (external dependency): `rocket::http::Status::from_code`
returns `Some(Status)` exactly for the three-digit range [100, 999]; src/lib.rs
states this invariant itself ("s.code has checked range [100, 999]" and
"A 'standard' status code, i.e. between 100 and 999"). A `Status` is just its
code, so the model returns the code. -/
def status_from_code (code : Nat) : Option Nat :=
  if 100 ≤ code ∧ code ≤ 999 then some code else none

/-- The `StatusCode` enum from src/lib.rs: either a standard status (whose
`&str` form comes from the table) or a non-standard one carrying an owned
decimal string. -/
inductive StatusCode where
  | Standard (code : Nat)
  | NonStandard (s : String)
deriving DecidableEq

/-- `impl From<u16> for StatusCode` from src/lib.rs: try
`Status::from_code`; on failure fall back to the owned decimal string. -/
def StatusCode.ofCode (code : Nat) : StatusCode :=
  match status_from_code code with
  | some s => .Standard s
  | none => .NonStandard (toString code)

/-- `StatusCode::as_str` from src/lib.rs. -/
def StatusCode.as_str : StatusCode → String
  | .Standard s => status_as_str s
  | .NonStandard s => s

/-- An ordered tuple of label values, e.g. `[endpoint, method, status]`. -/
abbrev LabelValues := List String

/-- Look up the value stored for label tuple `k` (first match). -/
def findLabelTuple {α : Type} : List (LabelValues × α) → LabelValues → Option α
  | [], _ => none
  | e :: rest, k => if e.1 = k then some e.2 else findLabelTuple rest k

/-- Modelled from the prometheus crate (external dependency):
`MetricVec::with_label_values` creates the child for a label tuple with the
initial value if it is absent, and otherwise leaves the map unchanged. -/
def ensureLabelTuple {α : Type} (entries : List (LabelValues × α)) (k : LabelValues)
    (init : α) : List (LabelValues × α) :=
  if (findLabelTuple entries k).isSome then entries else entries ++ [(k, init)]

/-- Apply `f` to the value stored at label tuple `k`, leaving other tuples
unchanged. -/
def updateLabelTuple {α : Type} (entries : List (LabelValues × α)) (k : LabelValues)
    (f : α → α) : List (LabelValues × α) :=
  entries.map (fun e => if e.1 = k then (e.1, f e.2) else e)

/-- `IntCounterVec::with_label_values` alone (as in `on_liftoff`): create the
tuple with count 0 if absent, no increment. -/
def counterWith (entries : List (LabelValues × Nat)) (k : LabelValues) :
    List (LabelValues × Nat) :=
  ensureLabelTuple entries k 0

/-- `IntCounterVec::with_label_values(...).inc()` (as in `on_response`):
create the tuple with 0 if absent, then add 1. -/
def counterInc (entries : List (LabelValues × Nat)) (k : LabelValues) :
    List (LabelValues × Nat) :=
  updateLabelTuple (ensureLabelTuple entries k 0) k (fun v => v + 1)

/-- `HistogramVec::with_label_values` alone (as in `on_liftoff`): create the
tuple with no observations if absent. A histogram child is modelled as the
list of its observed values (durations in model ticks); its observation
count is the list length. -/
def histWith (entries : List (LabelValues × List Nat)) (k : LabelValues) :
    List (LabelValues × List Nat) :=
  ensureLabelTuple entries k []

/-- `HistogramVec::with_label_values(...).observe(v)` (as in `on_response`):
create the tuple if absent, then record the observation. -/
def histObserve (entries : List (LabelValues × List Nat)) (k : LabelValues)
    (v : Nat) : List (LabelValues × List Nat) :=
  updateLabelTuple (ensureLabelTuple entries k []) k (fun obs => obs ++ [v])

/-- A metric family as the registry sees it: fully-qualified name, help text
and type. Modelled from the prometheus crate (external dependency); the
sample lines of a family are rendered from live child data by the text
encoder and are abstracted here (the claims under verification concern which
families appear and in which order, not sample rendering). -/
structure MetricFamily where
  name : String
  help : String
  mtype : String
deriving DecidableEq

/-- Registration error, modelled from the prometheus crate: registering two
collectors with the same name fails. -/
inductive RegistryError where
  | duplicateMetricName
deriving DecidableEq

/-- A registry: the ordered collection of registered metric families.
Modelled from the prometheus crate (external dependency). -/
structure Registry where
  families : List MetricFamily
deriving DecidableEq

/-- `Registry::new()`. -/
def Registry.new : Registry := ⟨[]⟩

/-- `Registry::register`: fails with a duplicate-name error if a family with
the same name is already registered, otherwise appends. -/
def Registry.register (r : Registry) (fam : MetricFamily) :
    Except RegistryError Registry :=
  if r.families.any (fun f => f.name == fam.name) then .error .duplicateMetricName
  else .ok ⟨r.families ++ [fam]⟩

/-- `Registry::gather`: the snapshot of all registered families, in
registration order. -/
def Registry.gather (r : Registry) : List MetricFamily := r.families

/-- Modelled from the prometheus crate: the fully-qualified metric name is
the namespace joined to the name with `_`, the namespace being skipped when
empty. -/
def build_fq_name (ns name : String) : String :=
  if ns = "" then name else ns ++ "_" ++ name

/-- The `PrometheusMetrics` struct from src/lib.rs. The two metric vectors'
live child data is held here (in the crate they are shared by `Arc` with the
`rocket_registry` entries). -/
structure PrometheusMetrics where
  http_requests_total : List (LabelValues × Nat)
  http_requests_duration_seconds : List (LabelValues × List Nat)
  rocket_registry : Registry
  custom_registry : Registry
deriving DecidableEq

/-- `PrometheusMetrics::with_registry` from src/lib.rs: creates a fresh
private `rocket_registry`, resolves the namespace from the
`ROCKET_PROMETHEUS_NAMESPACE` environment variable (modelled as
`envNamespace : Option String`; `none` stands for `env::var` failing because
the variable is unset or not valid UTF-8, in which case the literal
`"rocket"` is used), builds the two built-in metrics with namespaced names,
registers both into the private registry, and stores the caller-supplied
registry untouched as `custom_registry`. The Rust code unwraps the
registration results; the model propagates them through `Except`. -/
def with_registry (envNamespace : Option String) (registry : Registry) :
    Except RegistryError PrometheusMetrics := do
  let rocketRegistry := Registry.new
  let ns := envNamespace.getD "rocket"
  let totalFamily : MetricFamily :=
    ⟨build_fq_name ns "http_requests_total", "Total number of HTTP requests",
     "counter"⟩
  let durationFamily : MetricFamily :=
    ⟨build_fq_name ns "http_requests_duration_seconds",
     "HTTP request duration in seconds for all requests", "histogram"⟩
  let rocketRegistry ← rocketRegistry.register totalFamily
  let rocketRegistry ← rocketRegistry.register durationFamily
  pure { http_requests_total := []
         http_requests_duration_seconds := []
         rocket_registry := rocketRegistry
         custom_registry := registry }

/-- `PrometheusMetrics::new()` from src/lib.rs: `with_registry` over a fresh
registry. -/
def PrometheusMetrics.new (envNamespace : Option String) :
    Except RegistryError PrometheusMetrics :=
  with_registry envNamespace Registry.new

/-- `PrometheusMetrics::registry()` from src/lib.rs: the accessor returning
the custom registry. -/
def PrometheusMetrics.registry (pm : PrometheusMetrics) : Registry :=
  pm.custom_registry

/-- A mounted route as `on_liftoff` sees it: its URI template (e.g.
`/hello/<name>`) and its method token. Modelled from rocket's `Route`
(external dependency), restricted to the two fields src/lib.rs reads. -/
structure Route where
  uri : String
  method : String
deriving DecidableEq

/-- A request as the fairing sees it: the matched route (if any), the
resolved concrete path, the method token, and the request-local state cell
for `TimerStart`. Modelled from rocket's `Request` (external dependency),
restricted to what src/lib.rs reads. `timer_cache = none` means no
`TimerStart` value has been cached yet; `some t` means `TimerStart(t)` is
cached, where `t : Option Nat` is the optional start instant. -/
structure Request where
  route : Option Route
  path : String
  method : String
  timer_cache : Option (Option Nat)
deriving DecidableEq

/-- Modelled from rocket (external dependency): `Request::local_cache(f)`
returns the already-cached value of the type if one exists, and otherwise
stores and returns `f()`. It never overwrites an existing value. -/
def local_cache_timer (req : Request) (dflt : Option Nat) :
    Option Nat × Request :=
  match req.timer_cache with
  | some t => (t, req)
  | none => (dflt, { req with timer_cache := some dflt })

/-- `PrometheusMetrics::on_request` from src/lib.rs:
`req.local_cache(|| TimerStart(Some(Instant::now())))`. `now` is the current
instant in model ticks. -/
def on_request (now : Nat) (req : Request) : Request :=
  (local_cache_timer req (some now)).2

/-- The body of the `on_liftoff` loop in src/lib.rs: touch both built-in
vectors at `(route uri template, route method, "200")` without incrementing
or observing. -/
def liftoffStep (pm : PrometheusMetrics) (route : Route) : PrometheusMetrics :=
  let uri := route.uri
  let method := route.method
  let status := StatusCode.ofCode 200
  { pm with
    http_requests_total :=
      counterWith pm.http_requests_total [uri, method, status.as_str]
    http_requests_duration_seconds :=
      histWith pm.http_requests_duration_seconds [uri, method, status.as_str] }

/-- `PrometheusMetrics::on_liftoff` from src/lib.rs: iterate over all mounted
routes, pre-creating both label tuples for each. -/
def on_liftoff (routes : List Route) (pm : PrometheusMetrics) : PrometheusMetrics :=
  routes.foldl liftoffStep pm

/-- `PrometheusMetrics::on_response` from src/lib.rs. If the request matched
no route, return without touching anything. Otherwise the endpoint label is
the matched route's URI template (`req.route().unwrap().uri.as_str()` — the
resolved `path` is never read), the method label is the request's method, the
status label is the formatted response status; the counter is incremented at
that tuple, and, if the request-local `TimerStart` holds a start instant, the
elapsed duration is observed into the histogram at the same tuple. `now` is
the current instant and `statusCode` the response's status code. -/
def on_response (now statusCode : Nat) (req : Request) (pm : PrometheusMetrics) :
    PrometheusMetrics × Request :=
  match req.route with
  | none => (pm, req)
  | some route =>
    let endpoint := route.uri
    let method := req.method
    let status := StatusCode.ofCode statusCode
    let total := counterInc pm.http_requests_total [endpoint, method, status.as_str]
    let cached := local_cache_timer req none
    match cached.1 with
    | some st =>
      let duration := now - st
      ({ pm with
         http_requests_total := total
         http_requests_duration_seconds :=
           histObserve pm.http_requests_duration_seconds
             [endpoint, method, status.as_str] duration }, cached.2)
    | none => ({ pm with http_requests_total := total }, cached.2)

/-- A content type as rocket renders it: top type, subtype and parameters.
`ContentType::new("text", "plain").with_params([("version", "0.0.4"),
("charset", "utf-8")])` renders as
`text/plain; version=0.0.4; charset=utf-8`. -/
structure ContentType where
  top : String
  sub : String
  params : List (String × String)
deriving DecidableEq

/-- The scrape handler's result: the response status, content type and text
body. `Outcome::from(req, (ContentType, String))` responds with status 200. -/
structure ScrapeResponse where
  status : Nat
  content_type : ContentType
  body : String
deriving DecidableEq

/-- Modelled from the prometheus crate's `TextEncoder` (external dependency):
each gathered family is emitted as its `# HELP` line, its `# TYPE` line and
then its sample lines; sample rendering from live child data is abstracted
(it contributes text strictly inside the family's block, so block order and
block boundaries are faithful). -/
def encodeFamily (fam : MetricFamily) : String :=
  "# HELP " ++ fam.name ++ " " ++ fam.help ++ "\n" ++
  "# TYPE " ++ fam.name ++ " " ++ fam.mtype ++ "\n"

/-- Encoding a gathered snapshot: the families' blocks in order, appended to
one buffer. -/
def encodeRegistry (fams : List MetricFamily) : String :=
  String.join (fams.map encodeFamily)

/-- `Handler::handle` for `PrometheusMetrics` from src/lib.rs: encode the
custom registry's snapshot into the buffer, then the rocket registry's
snapshot, and respond with the buffer as body, content type
`text/plain; version=0.0.4; charset=utf-8` and status 200. -/
def handle (pm : PrometheusMetrics) : ScrapeResponse :=
  let buffer := encodeRegistry pm.custom_registry.gather ++
    encodeRegistry pm.rocket_registry.gather
  { status := 200
    content_type := ⟨"text", "plain", [("version", "0.0.4"), ("charset", "utf-8")]⟩
    body := buffer }

/-! ## Properties of the status code table and formatter -/

theorem asString_toList (s : String) : s.toList.asString = s := rfl

set_option maxRecDepth 100000 in
set_option maxHeartbeats 1000000 in
theorem checkCodeDigits_holds : checkCodeDigits 100 CODE_DIGITS.toList = true := by
  rfl

/-- A list accepted by the checker at starting code `c` holds exactly the
`3 * (1000 - c)` characters of the remaining codes. -/
theorem checkCodeDigits_length : ∀ (n : Nat) (l : List Char), l.length ≤ n →
    ∀ c, checkCodeDigits c l = true → l.length = 3 * (1000 - c) := by
  intro n
  induction n with
  | zero =>
    intro l hlen c h
    rcases l with _ | ⟨a, t⟩
    · simp only [checkCodeDigits, beq_iff_eq] at h
      simp only [List.length_nil]
      omega
    · simp at hlen
  | succ n ih =>
    intro l hlen c h
    rcases l with _ | ⟨a, _ | ⟨b, _ | ⟨d, rest⟩⟩⟩
    · simp only [checkCodeDigits, beq_iff_eq] at h
      simp only [List.length_nil]
      omega
    · simp [checkCodeDigits] at h
    · simp [checkCodeDigits] at h
    · simp only [checkCodeDigits, Bool.and_eq_true, beq_iff_eq] at h
      have hrest : rest.length ≤ n := by
        simp only [List.length_cons] at hlen
        omega
      have hlen2 := ih rest hrest (c + 1) h.2
      by_cases hc : c + 1 < 1000
      · simp only [List.length_cons]
        omega
      · have : rest.length = 0 := by omega
        have hnil : rest = [] := List.length_eq_zero.mp this
        subst hnil
        simp only [checkCodeDigits, beq_iff_eq] at h
        simp only [List.length_cons]
        omega

theorem code_digits_toList_length : CODE_DIGITS.toList.length = 2700 :=
  checkCodeDigits_length CODE_DIGITS.toList.length CODE_DIGITS.toList
    (Nat.le_refl _) 100 checkCodeDigits_holds

theorem code_digits_length : CODE_DIGITS.length = 2700 :=
  code_digits_toList_length

/-- If the checker accepts the suffix of the table starting at code `c`, the
3-character chunk at chunk index `j` renders code `c + j`. -/
theorem checkCodeDigits_slice (j : Nat) : ∀ (l : List Char) (c : Nat),
    checkCodeDigits c l = true → c + j < 1000 →
    ((l.drop (3 * j)).take 3).asString = toString (c + j) := by
  induction j with
  | zero =>
    intro l c h hlt
    rcases l with _ | ⟨a, _ | ⟨b, _ | ⟨d, rest⟩⟩⟩
    · simp only [checkCodeDigits, beq_iff_eq] at h
      omega
    · simp [checkCodeDigits] at h
    · simp [checkCodeDigits] at h
    · simp only [checkCodeDigits, Bool.and_eq_true, beq_iff_eq] at h
      simp only [List.drop_zero, List.take, Nat.add_zero]
      rw [← h.1]
      exact asString_toList _
  | succ j ih =>
    intro l c h hlt
    rcases l with _ | ⟨a, _ | ⟨b, _ | ⟨d, rest⟩⟩⟩
    · simp only [checkCodeDigits, beq_iff_eq] at h
      omega
    · simp [checkCodeDigits] at h
    · simp [checkCodeDigits] at h
    · simp only [checkCodeDigits, Bool.and_eq_true, beq_iff_eq] at h
      have hdrop : (a :: b :: d :: rest).drop (3 * (j + 1)) = rest.drop (3 * j) := by
        have h3 : 3 * (j + 1) = 3 * j + 1 + 1 + 1 := by omega
        rw [h3]
        rfl
      rw [hdrop]
      have := ih rest (c + 1) h.2 (by omega)
      rw [this]
      have : c + 1 + j = c + (j + 1) := by omega
      rw [this]

/-- For every code in the table's range, `status_as_str` agrees with the
decimal rendering of the code. -/
theorem status_as_str_eq_toString (c : Nat) (h1 : 100 ≤ c) (h2 : c ≤ 999) :
    status_as_str c = toString c := by
  have h3 := checkCodeDigits_slice (c - 100) CODE_DIGITS.toList 100
    checkCodeDigits_holds (by omega)
  unfold status_as_str
  have hm : (c - 100) * 3 = 3 * (c - 100) := Nat.mul_comm _ _
  simp only [hm]
  rw [h3]
  congr 1
  omega

theorem status200_as_str : (StatusCode.ofCode 200).as_str = "200" := by
  have h : StatusCode.ofCode 200 = .Standard 200 := by
    simp [StatusCode.ofCode, status_from_code]
  rw [h]
  show status_as_str 200 = "200"
  rw [status_as_str_eq_toString 200 (by omega) (by omega)]
  rfl

/-! ## Properties of the label-tuple maps -/

theorem findLabelTuple_append_of_isSome {α : Type} {m : List (LabelValues × α)}
    {k : LabelValues} {v : α} (m' : List (LabelValues × α))
    (h : findLabelTuple m k = some v) :
    findLabelTuple (m ++ m') k = some v := by
  induction m with
  | nil => simp [findLabelTuple] at h
  | cons e rest ih =>
    simp only [findLabelTuple, List.cons_append] at h ⊢
    by_cases he : e.1 = k
    · simpa [he] using h
    · simp only [he, if_false] at h ⊢
      exact ih h

theorem findLabelTuple_append_of_none {α : Type} {m : List (LabelValues × α)}
    {k : LabelValues} (m' : List (LabelValues × α))
    (h : findLabelTuple m k = none) :
    findLabelTuple (m ++ m') k = findLabelTuple m' k := by
  induction m with
  | nil => simp [findLabelTuple]
  | cons e rest ih =>
    simp only [findLabelTuple, List.cons_append] at h ⊢
    by_cases he : e.1 = k
    · simp [he] at h
    · simp only [he, if_false] at h ⊢
      exact ih h

theorem findLabelTuple_mem {α : Type} {m : List (LabelValues × α)}
    {k : LabelValues} {v : α} (h : findLabelTuple m k = some v) : (k, v) ∈ m := by
  induction m with
  | nil => simp [findLabelTuple] at h
  | cons e rest ih =>
    simp only [findLabelTuple] at h
    by_cases he : e.1 = k
    · simp only [he, if_true, Option.some.injEq] at h
      have hev : (k, v) = e := by
        obtain ⟨e1, e2⟩ := e
        simp only at he h
        simp [he, h]
      rw [hev]
      exact List.mem_cons_self _ _
    · simp only [he, if_false] at h
      exact List.mem_cons_of_mem _ (ih h)

theorem findLabelTuple_ensure_of_some {α : Type} {m : List (LabelValues × α)}
    {k : LabelValues} {v : α} (k' : LabelValues) (init : α)
    (h : findLabelTuple m k = some v) :
    findLabelTuple (ensureLabelTuple m k' init) k = some v := by
  unfold ensureLabelTuple
  by_cases hp : (findLabelTuple m k').isSome
  · simp [hp, h]
  · simp only [hp, if_false]
    exact findLabelTuple_append_of_isSome _ h

theorem findLabelTuple_ensure_self_of_none {α : Type} {m : List (LabelValues × α)}
    {k : LabelValues} (init : α) (h : findLabelTuple m k = none) :
    findLabelTuple (ensureLabelTuple m k init) k = some init := by
  unfold ensureLabelTuple
  simp only [h, Option.isSome_none, Bool.false_eq_true, if_false]
  rw [findLabelTuple_append_of_none _ h]
  simp [findLabelTuple]

theorem findLabelTuple_ensure_isSome {α : Type} (m : List (LabelValues × α))
    (k : LabelValues) (init : α) :
    (findLabelTuple (ensureLabelTuple m k init) k).isSome := by
  cases h : findLabelTuple m k with
  | none => rw [findLabelTuple_ensure_self_of_none init h]; rfl
  | some v => rw [findLabelTuple_ensure_of_some k init h]; rfl

theorem ensure_all_values {α : Type} {P : α → Prop} {m : List (LabelValues × α)}
    (k : LabelValues) (init : α) (hm : ∀ e ∈ m, P e.2) (hi : P init) :
    ∀ e ∈ ensureLabelTuple m k init, P e.2 := by
  intro e he
  unfold ensureLabelTuple at he
  by_cases hp : (findLabelTuple m k).isSome = true
  · rw [if_pos hp] at he
    exact hm e he
  · rw [if_neg hp] at he
    rw [List.mem_append] at he
    rcases he with he | he
    · exact hm e he
    · rw [List.mem_singleton] at he
      rw [he]
      exact hi

theorem findLabelTuple_update_self {α : Type} (m : List (LabelValues × α))
    (k : LabelValues) (f : α → α) :
    findLabelTuple (updateLabelTuple m k f) k = (findLabelTuple m k).map f := by
  induction m with
  | nil => simp [findLabelTuple, updateLabelTuple]
  | cons e rest ih =>
    simp only [updateLabelTuple, List.map_cons, findLabelTuple]
    by_cases he : e.1 = k
    · simp [he, findLabelTuple]
    · simp only [he, if_false, findLabelTuple]
      simpa [he] using ih

theorem findLabelTuple_counterInc_self (m : List (LabelValues × Nat))
    (k : LabelValues) :
    findLabelTuple (counterInc m k) k = some ((findLabelTuple m k).getD 0 + 1) := by
  unfold counterInc
  rw [findLabelTuple_update_self]
  cases h : findLabelTuple m k with
  | none => rw [findLabelTuple_ensure_self_of_none 0 h]; rfl
  | some v => rw [findLabelTuple_ensure_of_some k 0 h]; rfl

theorem findLabelTuple_histObserve_self (m : List (LabelValues × List Nat))
    (k : LabelValues) (v : Nat) :
    findLabelTuple (histObserve m k v) k =
      some ((findLabelTuple m k).getD [] ++ [v]) := by
  unfold histObserve
  rw [findLabelTuple_update_self]
  cases h : findLabelTuple m k with
  | none => rw [findLabelTuple_ensure_self_of_none [] h]; rfl
  | some obs => rw [findLabelTuple_ensure_of_some k [] h]; rfl

/-! ## Properties of the liftoff pre-creation fold -/

theorem on_liftoff_preserve_total :
    ∀ (routes : List Route) (pm : PrometheusMetrics) {k : LabelValues} {v : Nat},
    findLabelTuple pm.http_requests_total k = some v →
    findLabelTuple (on_liftoff routes pm).http_requests_total k = some v := by
  intro routes
  induction routes with
  | nil => intro pm k v h; exact h
  | cons r rest ih =>
    intro pm k v h
    show findLabelTuple (on_liftoff rest (liftoffStep pm r)).http_requests_total k = some v
    exact ih _ (findLabelTuple_ensure_of_some _ _ h)

theorem on_liftoff_preserve_duration :
    ∀ (routes : List Route) (pm : PrometheusMetrics) {k : LabelValues} {v : List Nat},
    findLabelTuple pm.http_requests_duration_seconds k = some v →
    findLabelTuple (on_liftoff routes pm).http_requests_duration_seconds k = some v := by
  intro routes
  induction routes with
  | nil => intro pm k v h; exact h
  | cons r rest ih =>
    intro pm k v h
    show findLabelTuple (on_liftoff rest (liftoffStep pm r)).http_requests_duration_seconds
      k = some v
    exact ih _ (findLabelTuple_ensure_of_some _ _ h)

theorem on_liftoff_zero_total :
    ∀ (routes : List Route) (pm : PrometheusMetrics),
    (∀ e ∈ pm.http_requests_total, e.2 = 0) →
    ∀ e ∈ (on_liftoff routes pm).http_requests_total, e.2 = 0 := by
  intro routes
  induction routes with
  | nil => intro pm h; exact h
  | cons r rest ih =>
    intro pm h
    show ∀ e ∈ (on_liftoff rest (liftoffStep pm r)).http_requests_total, e.2 = 0
    exact ih _ (ensure_all_values (P := fun v => v = 0) _ 0 h rfl)

theorem on_liftoff_empty_duration :
    ∀ (routes : List Route) (pm : PrometheusMetrics),
    (∀ e ∈ pm.http_requests_duration_seconds, e.2 = []) →
    ∀ e ∈ (on_liftoff routes pm).http_requests_duration_seconds, e.2 = [] := by
  intro routes
  induction routes with
  | nil => intro pm h; exact h
  | cons r rest ih =>
    intro pm h
    show ∀ e ∈ (on_liftoff rest (liftoffStep pm r)).http_requests_duration_seconds, e.2 = []
    exact ih _ (ensure_all_values (P := fun v => v = []) _ [] h rfl)

theorem on_liftoff_find_isSome :
    ∀ (routes : List Route) (pm : PrometheusMetrics) (r : Route), r ∈ routes →
    (findLabelTuple (on_liftoff routes pm).http_requests_total
      [r.uri, r.method, (StatusCode.ofCode 200).as_str]).isSome = true ∧
    (findLabelTuple (on_liftoff routes pm).http_requests_duration_seconds
      [r.uri, r.method, (StatusCode.ofCode 200).as_str]).isSome = true := by
  intro routes
  induction routes with
  | nil => intro pm r h; simp at h
  | cons r0 rest ih =>
    intro pm r h
    rcases List.mem_cons.mp h with h | h
    · subst h
      constructor
      · have h1 := findLabelTuple_ensure_isSome pm.http_requests_total
          [r.uri, r.method, (StatusCode.ofCode 200).as_str] 0
        obtain ⟨v, hv⟩ := Option.isSome_iff_exists.mp h1
        have := on_liftoff_preserve_total rest (liftoffStep pm r) (k :=
          [r.uri, r.method, (StatusCode.ofCode 200).as_str]) (v := v) hv
        show (findLabelTuple (on_liftoff rest (liftoffStep pm r)).http_requests_total
          _).isSome = true
        rw [this]; rfl
      · have h1 := findLabelTuple_ensure_isSome pm.http_requests_duration_seconds
          [r.uri, r.method, (StatusCode.ofCode 200).as_str] []
        obtain ⟨v, hv⟩ := Option.isSome_iff_exists.mp h1
        have := on_liftoff_preserve_duration rest (liftoffStep pm r) (k :=
          [r.uri, r.method, (StatusCode.ofCode 200).as_str]) (v := v) hv
        show (findLabelTuple
          (on_liftoff rest (liftoffStep pm r)).http_requests_duration_seconds
          _).isSome = true
        rw [this]; rfl
    · exact ih (liftoffStep pm r0) r h

/-! ## Properties of fully-qualified metric names and registration -/

theorem except_bind_ok {ε α β : Type} (v : α) (f : α → Except ε β) :
    (Except.ok v : Except ε α) >>= f = f v := rfl

theorem except_pure_eq_ok {ε α : Type} (v : α) :
    (pure v : Except ε α) = Except.ok v := rfl

theorem build_fq_name_inj (ns a b : String)
    (h : build_fq_name ns a = build_fq_name ns b) : a = b := by
  unfold build_fq_name at h
  by_cases hns : ns = ""
  · simpa [hns] using h
  · simp only [hns, if_false] at h
    have hd := congrArg String.data h
    simp only [String.data_append] at hd
    exact String.ext (List.append_cancel_left hd)

theorem builtin_names_distinct (ns : String) :
    build_fq_name ns "http_requests_total" ≠
      build_fq_name ns "http_requests_duration_seconds" := by
  intro h
  have := build_fq_name_inj ns _ _ h
  simp at this

/-- `with_registry` always succeeds, and its result is fully determined:
empty metric vectors, a private registry holding exactly the two built-in
families, and the caller-supplied registry stored untouched. -/
theorem with_registry_eq (envNamespace : Option String) (registry : Registry) :
    with_registry envNamespace registry =
      .ok { http_requests_total := []
            http_requests_duration_seconds := []
            rocket_registry := ⟨[⟨build_fq_name (envNamespace.getD "rocket")
                "http_requests_total", "Total number of HTTP requests", "counter"⟩,
              ⟨build_fq_name (envNamespace.getD "rocket")
                "http_requests_duration_seconds",
               "HTTP request duration in seconds for all requests", "histogram"⟩]⟩
            custom_registry := registry } := by
  have hne : (build_fq_name (envNamespace.getD "rocket") "http_requests_total" ==
      build_fq_name (envNamespace.getD "rocket") "http_requests_duration_seconds") = false := by
    rw [beq_eq_false_iff_ne]
    exact builtin_names_distinct (envNamespace.getD "rocket")
  unfold with_registry Registry.register Registry.new
  simp only [List.any_nil, List.nil_append, List.any_cons, Bool.or_false, hne,
    Bool.false_eq_true, if_false, except_bind_ok, except_pure_eq_ok, List.cons_append,
    List.nil_append]

/-! ## Shared concrete instances used by witnesses -/

/-- The custom registry from the crate's own doc example: one caller metric
`my_counter`. -/
def exampleCustomRegistry : Registry :=
  ⟨[⟨"my_counter", "Count of names", "counter"⟩]⟩

/-- The `PrometheusMetrics` value produced by
`with_registry none exampleCustomRegistry`. -/
def examplePm : PrometheusMetrics :=
  { http_requests_total := []
    http_requests_duration_seconds := []
    rocket_registry :=
      ⟨[⟨"rocket_http_requests_total", "Total number of HTTP requests", "counter"⟩,
        ⟨"rocket_http_requests_duration_seconds",
         "HTTP request duration in seconds for all requests", "histogram"⟩]⟩
    custom_registry := exampleCustomRegistry }

/-! ## The claims -/

/-- C2: for every request that matched no route, `on_response` is a no-op:
it returns without touching the metrics or the request-local state, so no
counter or histogram label tuple is created or updated. -/
theorem c2_unrouted_noop (now statusCode : Nat) (req : Request)
    (pm : PrometheusMetrics) (h : req.route = none) :
    on_response now statusCode req pm = (pm, req) := by
  unfold on_response
  rw [h]

theorem c2_unrouted_noop_witness :
    on_response 3 404 (Request.mk none "/nope" "GET" none)
        (PrometheusMetrics.mk [] [] Registry.new Registry.new) =
      (PrometheusMetrics.mk [] [] Registry.new Registry.new,
        Request.mk none "/nope" "GET" none) :=
  c2_unrouted_noop 3 404 _ _ rfl

/-- C6: for a routed request whose request-local `TimerStart` is absent
(the pre-routing hook never ran), `on_response` still increments the counter
at the full `(endpoint, method, status)` tuple, leaves the histogram
untouched, and completes normally (it is a total function of the request; it
caches `TimerStart(None)` and never fails the request). -/
theorem c6_missing_timer (now statusCode : Nat) (req : Request)
    (pm : PrometheusMetrics) (rt : Route) (hroute : req.route = some rt)
    (hcache : req.timer_cache = none) :
    (on_response now statusCode req pm).1.http_requests_total =
      counterInc pm.http_requests_total
        [rt.uri, req.method, (StatusCode.ofCode statusCode).as_str] ∧
    findLabelTuple (on_response now statusCode req pm).1.http_requests_total
        [rt.uri, req.method, (StatusCode.ofCode statusCode).as_str] =
      some ((findLabelTuple pm.http_requests_total
        [rt.uri, req.method, (StatusCode.ofCode statusCode).as_str]).getD 0 + 1) ∧
    (on_response now statusCode req pm).1.http_requests_duration_seconds =
      pm.http_requests_duration_seconds ∧
    (on_response now statusCode req pm).2 = { req with timer_cache := some none } := by
  obtain ⟨ro, pa, me, tc⟩ := req
  simp only at hroute hcache
  subst hroute hcache
  refine ⟨rfl, ?_, rfl, rfl⟩
  exact findLabelTuple_counterInc_self _ _

theorem c6_missing_timer_witness :
    (on_response 4 500 (Request.mk (some (Route.mk "/x" "GET")) "/x" "GET" none)
        (PrometheusMetrics.mk [] [] Registry.new Registry.new)).1.http_requests_total =
      counterInc [] ["/x", "GET", (StatusCode.ofCode 500).as_str] ∧
    findLabelTuple
        (on_response 4 500 (Request.mk (some (Route.mk "/x" "GET")) "/x" "GET" none)
          (PrometheusMetrics.mk [] [] Registry.new Registry.new)).1.http_requests_total
        ["/x", "GET", (StatusCode.ofCode 500).as_str] =
      some ((findLabelTuple ([] : List (LabelValues × Nat))
        ["/x", "GET", (StatusCode.ofCode 500).as_str]).getD 0 + 1) ∧
    (on_response 4 500 (Request.mk (some (Route.mk "/x" "GET")) "/x" "GET" none)
        (PrometheusMetrics.mk [] [] Registry.new Registry.new)).1.http_requests_duration_seconds =
      ([] : List (LabelValues × List Nat)) ∧
    (on_response 4 500 (Request.mk (some (Route.mk "/x" "GET")) "/x" "GET" none)
        (PrometheusMetrics.mk [] [] Registry.new Registry.new)).2 =
      Request.mk (some (Route.mk "/x" "GET")) "/x" "GET" (some none) :=
  c6_missing_timer 4 500 _ _ (Route.mk "/x" "GET") rfl rfl

/-- C9 counterexample: the pre-routing hook does NOT overwrite on a second
invocation. Rocket's `local_cache` is first-write-wins, so after invocations
at instants 0 and then 1 the stored start instant is 0, not 1 as the claim's
"each later call overwriting the stored instant" would require. -/
theorem c9_counterexample :
    (on_request 1 (on_request 0 (Request.mk none "/" "GET" none))).timer_cache =
      some (some 0) ∧
    (on_request 1 (on_request 0 (Request.mk none "/" "GET" none))).timer_cache ≠
      some (some 1) := by
  refine ⟨rfl, ?_⟩
  decide

/-- C9 (amended): the pre-routing hook never fails and always leaves a cached
`TimerStart`; the first invocation stores the current instant, and any later
invocation on the same request is a no-op that keeps the previously stored
value (first write wins), rather than overwriting it. -/
theorem c9_first_write_wins (now : Nat) (req : Request) :
    ((on_request now req).timer_cache).isSome = true ∧
    (req.timer_cache = none → (on_request now req).timer_cache = some (some now)) ∧
    (∀ v, req.timer_cache = some v → on_request now req = req) := by
  refine ⟨?_, ?_, ?_⟩
  · cases htc : req.timer_cache with
    | none => simp [on_request, local_cache_timer, htc]
    | some v => simp [on_request, local_cache_timer, htc]
  · intro h
    simp [on_request, local_cache_timer, h]
  · intro v h
    simp [on_request, local_cache_timer, h]

theorem c9_first_write_wins_witness :
    (on_request 5 (Request.mk none "/metrics" "GET" none)).timer_cache =
      some (some 5) :=
  (c9_first_write_wins 5 (Request.mk none "/metrics" "GET" none)).2.1 rfl

theorem length_asString (l : List Char) : l.asString.length = l.length := rfl

/-- C10: for every code accepted by the modelled `Status::from_code`, the
table slice `(code-100)*3 .. (code-100)*3+3` lies within the 2700-byte
`CODE_DIGITS` constant, and the slice taken by `status_as_str` has exactly
3 characters — the access is always in bounds. -/
theorem c10_table_bounds (code s : Nat) (h : status_from_code code = some s) :
    (s - 100) * 3 + 3 ≤ CODE_DIGITS.length ∧ (status_as_str s).length = 3 := by
  unfold status_from_code at h
  by_cases hc : 100 ≤ code ∧ code ≤ 999
  · rw [if_pos hc] at h
    have hs : code = s := by simpa using h
    subst hs
    refine ⟨?_, ?_⟩
    · rw [code_digits_length]
      omega
    · show ((CODE_DIGITS.toList.drop ((code - 100) * 3)).take 3).asString.length = 3
      rw [length_asString, List.length_take, List.length_drop,
        code_digits_toList_length]
      omega
  · rw [if_neg hc] at h
    simp at h

theorem c10_table_bounds_witness :
    (200 - 100) * 3 + 3 ≤ CODE_DIGITS.length ∧ (status_as_str 200).length = 3 :=
  c10_table_bounds 200 200 rfl

/-- C5: for every status code in [100, 999] the formatter takes the
`Standard` path, whose text is the 3-character slice of `CODE_DIGITS` at
offset `(code-100)*3` (that slice being what `status_as_str` returns), and
that text equals the decimal string of the code; for every other u16 code it
takes the `NonStandard` path returning the owned decimal string; in all
cases the result is indistinguishable from the decimal rendering. -/
theorem c5_status_formatter (code : Nat) (_hcode : code < 65536) :
    (StatusCode.ofCode code).as_str = toString code ∧
    (100 ≤ code ∧ code ≤ 999 →
      StatusCode.ofCode code = .Standard code ∧ status_as_str code = toString code) ∧
    (¬(100 ≤ code ∧ code ≤ 999) →
      StatusCode.ofCode code = .NonStandard (toString code)) := by
  by_cases hc : 100 ≤ code ∧ code ≤ 999
  · have hof : StatusCode.ofCode code = .Standard code := by
      unfold StatusCode.ofCode status_from_code
      rw [if_pos hc]
    have heq := status_as_str_eq_toString code hc.1 hc.2
    refine ⟨?_, fun _ => ⟨hof, heq⟩, fun hn => absurd hc hn⟩
    rw [hof]
    exact heq
  · have hof : StatusCode.ofCode code = .NonStandard (toString code) := by
      unfold StatusCode.ofCode status_from_code
      rw [if_neg hc]
    refine ⟨?_, fun h => absurd h hc, fun _ => hof⟩
    rw [hof]
    rfl

theorem c5_status_formatter_witness :
    (StatusCode.ofCode 200).as_str = "200" ∧
    (StatusCode.ofCode 1010).as_str = "1010" := by
  refine ⟨?_, ?_⟩
  · rw [(c5_status_formatter 200 (by omega)).1]
    rfl
  · rw [(c5_status_formatter 1010 (by omega)).1]
    rfl

/-- C3: `with_registry` always succeeds (so two instances may be constructed
over one shared caller registry without a duplicate-name error, registration
of the built-ins going to a fresh private registry each time); `registry()`
returns exactly the caller-supplied registry, unchanged — in particular the
built-in metric families are added only to the private registry, never to
the caller's. -/
theorem c3_private_registry (envNamespace : Option String) (R : Registry) :
    (with_registry envNamespace R).map PrometheusMetrics.registry = .ok R ∧
    (with_registry envNamespace R).map (fun pm => pm.custom_registry) = .ok R ∧
    (with_registry envNamespace R).map
        (fun pm => pm.rocket_registry.families.map MetricFamily.name) =
      .ok [build_fq_name (envNamespace.getD "rocket") "http_requests_total",
           build_fq_name (envNamespace.getD "rocket")
             "http_requests_duration_seconds"] ∧
    (with_registry envNamespace R).map
        (fun pm => pm.custom_registry.families.map MetricFamily.name) =
      .ok (R.families.map MetricFamily.name) := by
  rw [with_registry_eq]
  exact ⟨rfl, rfl, rfl, rfl⟩

/-- C7: the namespace is taken from the single environment value (modelled
as the `envNamespace` argument, resolved once at construction); when it is
unset or not valid UTF-8 (`none`), the namespace is the literal `"rocket"`,
and the resolved namespace is prepended to both built-in metric names. -/
theorem c7_namespace (envNamespace : Option String) (R : Registry) :
    (with_registry envNamespace R).map
        (fun pm => pm.rocket_registry.families.map MetricFamily.name) =
      .ok [build_fq_name (envNamespace.getD "rocket") "http_requests_total",
           build_fq_name (envNamespace.getD "rocket")
             "http_requests_duration_seconds"] ∧
    (envNamespace = none →
      (with_registry envNamespace R).map
          (fun pm => pm.rocket_registry.families.map MetricFamily.name) =
        .ok ["rocket_http_requests_total",
             "rocket_http_requests_duration_seconds"]) ∧
    (∀ s, envNamespace = some s → s ≠ "" →
      (with_registry envNamespace R).map
          (fun pm => pm.rocket_registry.families.map MetricFamily.name) =
        .ok [s ++ "_http_requests_total", s ++ "_http_requests_duration_seconds"]) := by
  rw [with_registry_eq]
  refine ⟨rfl, ?_, ?_⟩
  · intro h
    subst h
    rfl
  · intro s hs hne
    subst hs
    simp only [Option.getD_some, build_fq_name, if_neg hne, Except.map,
      List.map_cons, List.map_nil]
    rw [String.append_assoc, String.append_assoc]
    rfl

theorem c7_namespace_witness :
    (with_registry none Registry.new).map
        (fun pm => pm.rocket_registry.families.map MetricFamily.name) =
      .ok ["rocket_http_requests_total", "rocket_http_requests_duration_seconds"] :=
  (c7_namespace none Registry.new).2.1 rfl

/-- C4 counterexample: the scrape handler's body is NOT the built-in blocks
followed by the custom blocks. At the instance constructed by
`with_registry none exampleCustomRegistry` (one custom metric `my_counter`),
the body differs from the rocket-registry-first concatenation the claim
describes. -/
theorem c4_counterexample :
    with_registry none exampleCustomRegistry = .ok examplePm ∧
    (handle examplePm).body ≠
      encodeRegistry examplePm.rocket_registry.gather ++
        encodeRegistry examplePm.custom_registry.gather := by
  refine ⟨rfl, by decide⟩

/-- C4 (amended): for every scrape of a constructed instance, the handler
gathers both registries and returns one text body with status 200 and
content type `text/plain; version=0.0.4; charset=utf-8`, in which the
caller's custom metric blocks appear first, followed by the two built-in
metric blocks. -/
theorem c4_scrape_handler (envNamespace : Option String) (R : Registry)
    (pm : PrometheusMetrics) (h : with_registry envNamespace R = .ok pm) :
    (handle pm).status = 200 ∧
    (handle pm).content_type =
      ⟨"text", "plain", [("version", "0.0.4"), ("charset", "utf-8")]⟩ ∧
    (handle pm).body =
      encodeRegistry R.families ++
        encodeRegistry
          [⟨build_fq_name (envNamespace.getD "rocket") "http_requests_total",
            "Total number of HTTP requests", "counter"⟩,
           ⟨build_fq_name (envNamespace.getD "rocket")
              "http_requests_duration_seconds",
            "HTTP request duration in seconds for all requests", "histogram"⟩] := by
  rw [with_registry_eq] at h
  injection h with h2
  subst h2
  exact ⟨rfl, rfl, rfl⟩

theorem c4_scrape_handler_witness :
    (handle examplePm).status = 200 ∧
    (handle examplePm).content_type =
      ⟨"text", "plain", [("version", "0.0.4"), ("charset", "utf-8")]⟩ ∧
    (handle examplePm).body =
      encodeRegistry exampleCustomRegistry.families ++
        encodeRegistry
          [⟨build_fq_name ((none : Option String).getD "rocket")
              "http_requests_total", "Total number of HTTP requests", "counter"⟩,
           ⟨build_fq_name ((none : Option String).getD "rocket")
              "http_requests_duration_seconds",
            "HTTP request duration in seconds for all requests", "histogram"⟩] :=
  c4_scrape_handler none exampleCustomRegistry examplePm rfl

/-- C8: starting from a freshly constructed instance (both metric vectors
empty), `on_liftoff` pre-creates, for every statically known route, both the
counter and the histogram tuple `(route template, method, "200")` without
incrementing or observing: afterwards each such counter tuple exists with
value 0 and each histogram tuple exists with 0 observations, and every tuple
in either vector is still at its initial value. -/
theorem c8_liftoff_precreate (routes : List Route) (pm : PrometheusMetrics)
    (h1 : pm.http_requests_total = [])
    (h2 : pm.http_requests_duration_seconds = []) :
    (∀ r ∈ routes,
      findLabelTuple (on_liftoff routes pm).http_requests_total
        [r.uri, r.method, "200"] = some 0 ∧
      findLabelTuple (on_liftoff routes pm).http_requests_duration_seconds
        [r.uri, r.method, "200"] = some []) ∧
    (∀ e ∈ (on_liftoff routes pm).http_requests_total, e.2 = 0) ∧
    (∀ e ∈ (on_liftoff routes pm).http_requests_duration_seconds, e.2 = []) := by
  have hz : ∀ e ∈ pm.http_requests_total, e.2 = 0 := by
    rw [h1]; intro e he; simp at he
  have hz2 : ∀ e ∈ pm.http_requests_duration_seconds, e.2 = [] := by
    rw [h2]; intro e he; simp at he
  refine ⟨?_, on_liftoff_zero_total routes pm hz,
    on_liftoff_empty_duration routes pm hz2⟩
  intro r hr
  have hs := on_liftoff_find_isSome routes pm r hr
  rw [← status200_as_str]
  constructor
  · obtain ⟨v, hv⟩ := Option.isSome_iff_exists.mp hs.1
    have hzv := on_liftoff_zero_total routes pm hz _ (findLabelTuple_mem hv)
    simp only at hzv
    rw [hv, hzv]
  · obtain ⟨v, hv⟩ := Option.isSome_iff_exists.mp hs.2
    have hzv := on_liftoff_empty_duration routes pm hz2 _ (findLabelTuple_mem hv)
    simp only at hzv
    rw [hv, hzv]

theorem c8_liftoff_precreate_witness :
    findLabelTuple
        (on_liftoff [Route.mk "/hello/<name>" "GET"]
          (PrometheusMetrics.mk [] [] Registry.new Registry.new)).http_requests_total
        ["/hello/<name>", "GET", "200"] = some 0 ∧
    findLabelTuple
        (on_liftoff [Route.mk "/hello/<name>" "GET"]
          (PrometheusMetrics.mk [] [] Registry.new
            Registry.new)).http_requests_duration_seconds
        ["/hello/<name>", "GET", "200"] = some [] :=
  (c8_liftoff_precreate [Route.mk "/hello/<name>" "GET"]
    (PrometheusMetrics.mk [] [] Registry.new Registry.new) rfl rfl).1
    (Route.mk "/hello/<name>" "GET") (List.mem_singleton.mpr rfl)

/-- C1: the endpoint label is the matched route's URI template, never the
resolved concrete path (`on_response` is invariant under changing the path),
so two routed requests matching the same template — regardless of their
concrete paths — update one and the same label tuple of both the counter and
the histogram, creating exactly one tuple from an empty state, not one per
distinct path. -/
theorem c1_route_template (now1 now2 statusCode t1 t2 : Nat) (rt : Route)
    (req1 req2 : Request) (pm : PrometheusMetrics) (p : String)
    (h1 : req1.route = some rt) (h2 : req2.route = some rt)
    (hm : req1.method = req2.method)
    (ht1 : req1.timer_cache = some (some t1))
    (ht2 : req2.timer_cache = some (some t2))
    (he1 : pm.http_requests_total = [])
    (he2 : pm.http_requests_duration_seconds = []) :
    (on_response now2 statusCode req2
        (on_response now1 statusCode req1 pm).1).1.http_requests_total =
      [([rt.uri, req2.method, (StatusCode.ofCode statusCode).as_str], 2)] ∧
    (on_response now2 statusCode req2
        (on_response now1 statusCode req1 pm).1).1.http_requests_duration_seconds =
      [([rt.uri, req2.method, (StatusCode.ofCode statusCode).as_str],
        [now1 - t1, now2 - t2])] ∧
    (on_response now1 statusCode { req1 with path := p } pm).1 =
      (on_response now1 statusCode req1 pm).1 := by
  obtain ⟨r1, p1, m1, c1⟩ := req1
  obtain ⟨r2, p2, m2, c2⟩ := req2
  obtain ⟨tot, dur, rocketR, customR⟩ := pm
  simp only at h1 h2 hm ht1 ht2 he1 he2
  subst h1 h2 hm ht1 ht2 he1 he2
  refine ⟨?_, ?_, rfl⟩ <;>
    simp [on_response, local_cache_timer, counterInc, ensureLabelTuple,
      updateLabelTuple, findLabelTuple, histObserve]

theorem c1_route_template_witness :
    (on_response 9 200
        (Request.mk (some (Route.mk "/hello/<name>" "GET")) "/hello/bob" "GET"
          (some (some 6)))
        (on_response 5 200
          (Request.mk (some (Route.mk "/hello/<name>" "GET")) "/hello/alice" "GET"
            (some (some 2)))
          (PrometheusMetrics.mk [] [] Registry.new
            Registry.new)).1).1.http_requests_total =
      [(["/hello/<name>", "GET", (StatusCode.ofCode 200).as_str], 2)] ∧
    (on_response 9 200
        (Request.mk (some (Route.mk "/hello/<name>" "GET")) "/hello/bob" "GET"
          (some (some 6)))
        (on_response 5 200
          (Request.mk (some (Route.mk "/hello/<name>" "GET")) "/hello/alice" "GET"
            (some (some 2)))
          (PrometheusMetrics.mk [] [] Registry.new
            Registry.new)).1).1.http_requests_duration_seconds =
      [(["/hello/<name>", "GET", (StatusCode.ofCode 200).as_str], [5 - 2, 9 - 6])] ∧
    (on_response 5 200
        ({ Request.mk (some (Route.mk "/hello/<name>" "GET")) "/hello/alice" "GET"
            (some (some 2)) with path := "/hello/carol" })
        (PrometheusMetrics.mk [] [] Registry.new Registry.new)).1 =
      (on_response 5 200
        (Request.mk (some (Route.mk "/hello/<name>" "GET")) "/hello/alice" "GET"
          (some (some 2)))
        (PrometheusMetrics.mk [] [] Registry.new Registry.new)).1 :=
  c1_route_template 5 9 200 2 6 (Route.mk "/hello/<name>" "GET") _ _ _
    "/hello/carol" rfl rfl rfl rfl rfl rfl rfl

end RocketPrometheus
